import Mathlib

/-!
# Route composition and status reporting of the backend entry point

A shallow embedding of `index.js` (the ordered middleware stack it registers on the
Express application, and the two login/register carve-out handlers) and of
`routes/statusRouter.js` (the status payload and the uptime rendering).

Conventions of the embedding

* A request is its method, the pathname of its URL and its credential material.
* The collaborators that `index.js` only `require`s (body parser, CORS middleware, static
  file server, `authenticate`, the product / category / user / address / contact / order
  routers and the handler functions stored inside `userRouter`) are parameters: a
  behaviour gives, for a handler and a request, one of three outcomes: it sends a
  response, it calls `next()`, or it raises (throws, or calls `next(err)`). A handler is
  stateless: called twice on one request it does the same twice.
* Express's matching is modelled as Express 4 compiles the paths used here: matching is
  case-insensitive, `app.use(path, fn)` matches `path` itself and everything below it at a
  `/` boundary, `app.post(path, fn)` / `app.get(path, fn)` match `path` with an optional
  trailing slash and only the registered method (`HEAD` is served by `GET` routes).
* Dispatch walks the stack in registration order; a handler that responds or raises ends
  it, a handler that calls `next()` hands the request to the next matching layer. No
  error-handling middleware is registered, so a raised error goes to Express's default
  error response.
* The body parser and the CORS middleware are registered first and without a path, so
  they see every request. What a later binding does with a request is stated for requests
  that arrive at it, that is, that these two (and any earlier matching binding) passed on.
* Numbers of the status handler are exact rationals (`process.uptime()` is measured in
  seconds, fractions included); the two memory figures, which the source rounds in floating
  point, are taken as already rendered.
-/

namespace AnneBackend

/-! ## Status reporter: `routes/statusRouter.js` -/

/-- JavaScript's remainder `a % n` on exact numbers: the quotient is truncated towards
zero, so the result carries the sign of the dividend. -/
def jsRem (a n : ℚ) : ℚ :=
  a - n * (if 0 ≤ a / n then ⌊a / n⌋ else ⌈a / n⌉)

/-- `const uptimeHours = Math.floor(uptimeSeconds / 3600);` -/
def uptimeHours (uptimeSeconds : ℚ) : ℤ :=
  ⌊uptimeSeconds / 3600⌋

/-- `const uptimeMinutes = Math.floor((uptimeSeconds % 3600) / 60);` -/
def uptimeMinutes (uptimeSeconds : ℚ) : ℤ :=
  ⌊jsRem uptimeSeconds 3600 / 60⌋

/-- The template literal that renders hours and minutes, with one blank between them. -/
def formattedUptime (uptimeSeconds : ℚ) : String :=
  toString (uptimeHours uptimeSeconds) ++ "h " ++ toString (uptimeMinutes uptimeSeconds) ++ "m"

/-- A JSON value of the depth the status payload needs: a string, or an object of strings. -/
inductive JsonValue where
  | str (s : String)
  | obj (fields : List (String × String))
  deriving DecidableEq, Repr

/-- What the status handler reads from its process: environment, build metadata, clocks. -/
structure Process where
  /-- `process.env.NODE_ENV`, `none` when unset -/
  nodeEnv : Option String
  /-- `packageInfo.version`, `none` when `package.json` has no version -/
  packageVersion : Option String
  /-- `process.uptime()`, in seconds -/
  uptime : ℚ
  /-- `new Date().toISOString()` -/
  isoNow : String
  /-- `new Date().toLocaleString()` -/
  localeNow : String
  /-- the rendering of `Math.round(memoryUsage.rss / 1024 / 1024 * 100) / 100` -/
  memoryUsedMB : String
  /-- the rendering of `Math.round(os.totalmem() / 1024 / 1024 * 100) / 100` -/
  memoryTotalMB : String
  /-- `process.platform` -/
  platform : String
  /-- `process.version` -/
  nodeVersion : String

/-- JavaScript's `v || d` for a value that is a string or undefined: the empty string is
falsy as well. -/
def orDefault (v : Option String) (d : String) : String :=
  match v with
  | some s => if s = "" then d else s
  | none => d

/-- The object handed to `res.json` by the `GET /` route of the status router, as its
fields in insertion order. -/
def statusPayload (p : Process) : List (String × JsonValue) :=
  let response : List (String × JsonValue) :=
    [ ("status", .str "ok"),
      ("version", .str (orDefault p.packageVersion "1.0.0")),
      ("environment", .str (orDefault p.nodeEnv "development")),
      ("timestamp", .str p.isoNow) ]
  if p.nodeEnv ≠ some "production" then
    response ++
      [ ("uptime", .str (formattedUptime p.uptime)),
        ("memory", .obj [("used", p.memoryUsedMB ++ " MB"), ("total", p.memoryTotalMB ++ " MB")]),
        ("platform", .str p.platform),
        ("nodeVersion", .str p.nodeVersion) ]
  else
    response

/-- The value of a field of a JSON object, `none` when the object has no such field. -/
def field (name : String) (fields : List (String × JsonValue)) : Option JsonValue :=
  fields.lookup name

/-! ## Requests, responses and handlers -/

/-- HTTP request methods. -/
inductive Method where
  | GET | HEAD | POST | PUT | PATCH | DELETE | OPTIONS
  deriving DecidableEq, Repr

/-- An incoming request: method, pathname of the URL, and the credential material. -/
structure Request where
  method : Method
  path : String
  authorization : Option String
  deriving DecidableEq, Repr

/-- A response body: a JSON object, the status page (its interpolated parts: title,
version, environment and, outside production, the start time), or anything else. -/
inductive Body where
  | json (fields : List (String × JsonValue))
  | statusPage (title version environment : String) (startedAt : Option String)
  | other (content : String)
  deriving DecidableEq, Repr

/-- A response: status code, the headers set by the handler, body. -/
structure Response where
  status : Nat
  headers : List (String × String)
  body : Body
  deriving DecidableEq, Repr

/-- What a handler does with a request, as far as dispatch is concerned. -/
inductive Outcome where
  /-- it sends a response and does not call `next` -/
  | respond (r : Response)
  /-- it calls `next()`: the request is passed on -/
  | next
  /-- it throws, or calls `next(err)` -/
  | error
  deriving DecidableEq, Repr

/-- The functions that `index.js` registers, and the handler functions found inside the
routes of `userRouter` (named by a label). -/
inductive Handler where
  | expressJson
  | cors
  | staticUploads
  | statusRouter
  | productsRouter
  | categoriesRouter
  | postUsersLogin
  | postUsersRegister
  | authenticate
  | userRouter
  | addressRouter
  | contactRouter
  | orderRouter
  | rootPage
  | routeHandler (label : String)
  deriving DecidableEq, Repr

/-- One entry of a route's `stack` inside a router: `handle` is its function, `none`
when the property is missing or falsy. -/
structure RouteLayer where
  handle : Option String

/-- A route of a router: its path, its `methods` object (which methods are truthy) and
its stack of handlers. -/
structure Route where
  path : String
  methods : Method → Bool
  stack : List RouteLayer

/-- One entry of a router's `stack`: `route` is `none` for a middleware layer. -/
structure RouterLayer where
  route : Option Route

/-- The collaborators of `index.js`. -/
structure App where
  /-- what each opaque handler does with a request -/
  behaviour : Handler → Request → Outcome
  /-- `userRouter.stack` -/
  userRouterStack : List RouterLayer
  /-- the process the status handlers read -/
  proc : Process

/-! ## Path matching -/

/-- The path as the case-insensitive matchers see it. -/
def lowered (path : String) : List Char :=
  path.toList.map Char.toLower

/-- Removes `mount` from the front of `l`; `none` when `l` does not start with it. -/
def stripMount : List Char → List Char → Option (List Char)
  | [], l => some l
  | _ :: _, [] => none
  | c :: cs, d :: ds => if c = d then stripMount cs ds else none

/-- The test of a layer created by `app.use(mount, fn)`, for a mount that does not end in
a slash: the path is the mount or continues it at a slash. -/
def mountMatches (mount path : String) : Bool :=
  match stripMount mount.toList (lowered path) with
  | some [] => true
  | some (c :: _) => c == '/'
  | none => false

/-- The test of a route's path against an already lowered path: the pattern, with an
optional trailing slash (when the pattern ends in a slash, that slash is the optional
one). -/
def routeMatchesChars (pattern : String) (l : List Char) : Bool :=
  if pattern.toList.getLast? = some '/' then
    l == pattern.toList || l == pattern.toList.dropLast
  else
    l == pattern.toList || l == pattern.toList ++ ['/']

/-- The path test of a layer created by `app.get(pattern, fn)` or `app.post(pattern, fn)`. -/
def routeMatches (pattern path : String) : Bool :=
  routeMatchesChars pattern (lowered path)

/-- The method test of a route registered for one method: a `HEAD` request is served by a
`GET` route. -/
def handlesMethod (registered m : Method) : Bool :=
  m == registered || (m == .HEAD && registered == .GET)

/-- The URL a router mounted at `mount` sees. Express removes what the mount's pattern
matched: the mount and, when the path goes on with a slash that is itself followed by a
slash or by nothing, that slash too; a single slash is handed over when nothing is left. -/
def innerPath (mount path : String) : List Char :=
  match stripMount mount.toList (lowered path) with
  | some [] => ['/']
  | some ['/'] => ['/']
  | some ('/' :: '/' :: rest) => '/' :: rest
  | some r => r
  | none => lowered path

/-! ## The login / register carve-outs of `index.js` -/

/-- The predicate handed to `userRouter.stack.find`: the layer has a route, the route's
path is exactly `subPath`, and its `methods.post` is truthy. -/
def isPostRouteFor (subPath : String) (layer : RouterLayer) : Bool :=
  match layer.route with
  | some r => r.path == subPath && r.methods .POST
  | none => false

/-- What the carve-out finds inside `userRouter`. -/
inductive Extraction where
  /-- a layer was found and `route.stack[0].handle` is a function: it is called -/
  | handle (label : String)
  /-- no layer was found, or `route.stack[0].handle` is falsy: the 404 branch -/
  | notConfigured
  /-- a layer was found and its `route.stack` is empty: `route.stack[0]` is undefined
  and reading `.handle` of it throws a TypeError -/
  | typeError
  deriving DecidableEq, Repr

/-- The lookup of both carve-outs:
`find(layer => layer.route && layer.route.path === subPath && layer.route.methods.post)`
followed by the test `found && found.route.stack[0].handle`. -/
def extractHandler (stack : List RouterLayer) (subPath : String) : Extraction :=
  match stack.find? (isPostRouteFor subPath) with
  | none => .notConfigured
  | some layer =>
    match layer.route with
    | none => .typeError
    | some r =>
      match r.stack with
      | [] => .typeError
      | first :: _ =>
        match first.handle with
        | some h => .handle h
        | none => .notConfigured

/-- The request methods, for enumerating the `methods` object of a route. -/
def allMethods : List Method :=
  [.GET, .HEAD, .POST, .PUT, .PATCH, .DELETE, .OPTIONS]

/-- A route as Express's API builds it: `route.post(fn)` (and its siblings) sets
`methods.post` in the same step in which it pushes a stack entry holding the function
`fn`, and it refuses anything but a function. So every stack entry holds a function, and
a route with a method set has a non-empty stack. -/
def routeBuilt (r : Route) : Bool :=
  r.stack.all (fun entry => entry.handle.isSome) &&
    (!(allMethods.any r.methods) || !r.stack.isEmpty)

/-- A router stack as Express's API builds it: each of its routes is. -/
def expressBuilt (stack : List RouterLayer) : Bool :=
  stack.all (fun layer =>
    match layer.route with
    | some r => routeBuilt r
    | none => true)

/-- A call of a handler: which function, the mount path it was invoked under (empty for
a route handler and for middleware registered without a path), and the request it was
handed. -/
structure Call where
  handler : Handler
  mount : String
  request : Request
  deriving DecidableEq, Repr

/-- The body shared by the two carve-out handlers: call the extracted handler with
`(req, res, next)` and return what it returns, or answer 404 with a JSON error. The
calls made are returned next to the outcome. -/
def carveOut (app : App) (subPath message : String) (req : Request) : List Call × Outcome :=
  match extractHandler app.userRouterStack subPath with
  | .handle h => ([⟨.routeHandler h, "", req⟩], app.behaviour (.routeHandler h) req)
  | .notConfigured => ([], .respond ⟨404, [], .json [("error", .str message)]⟩)
  | .typeError => ([], .error)

/-- The handler of `app.post("/api/users/login", ...)`. -/
def postUsersLogin (app : App) (req : Request) : List Call × Outcome :=
  carveOut app "/login" "Login endpoint not configured properly" req

/-- The handler of `app.post("/api/users/register", ...)`. -/
def postUsersRegister (app : App) (req : Request) : List Call × Outcome :=
  carveOut app "/register" "Register endpoint not configured properly" req

/-! ## The handlers written in this repository -/

/-- The status router mounted at `/api/status`: its only route is `GET /`, which sets two
CORS headers and sends the payload; any other request falls out of the router. -/
def statusRouterHandle (p : Process) (req : Request) : Outcome :=
  if routeMatchesChars "/" (innerPath "/api/status" req.path) && handlesMethod .GET req.method then
    .respond
      ⟨200,
       [ ("Access-Control-Allow-Origin", "*"),
         ("Access-Control-Allow-Headers", "Origin, X-Requested-With, Content-Type, Accept") ],
       .json (statusPayload p)⟩
  else
    .next

/-- The handler of `app.get('/', ...)`: the HTML status page. -/
def rootPageHandle (p : Process) : Outcome :=
  let isProduction : Bool := p.nodeEnv = some "production"
  .respond
    ⟨200, [],
     .statusPage
       (if isProduction then "API Server" else "Backend Status")
       (orDefault p.packageVersion "1.0.0")
       (orDefault p.nodeEnv "development")
       (if !isProduction then some p.localeNow else none)⟩

/-! ## The middleware stack of `index.js` and its dispatch -/

/-- How a layer selects requests. -/
inductive Matcher where
  /-- `app.use(fn)`: every request -/
  | all
  /-- `app.use(mount, fn)` -/
  | mount (path : String)
  /-- `app.get(path, fn)` / `app.post(path, fn)` -/
  | route (method : Method) (path : String)
  deriving DecidableEq, Repr

/-- One layer of the application's stack. -/
structure Layer where
  matcher : Matcher
  handler : Handler
  deriving DecidableEq, Repr

/-- Whether the layer's matcher selects the request. -/
def Layer.selects (l : Layer) (req : Request) : Bool :=
  match l.matcher with
  | .all => true
  | .mount m => mountMatches m req.path
  | .route method pattern => routeMatches pattern req.path && handlesMethod method req.method

/-- The mount path a layer's handler is invoked under. -/
def Layer.mountPath (l : Layer) : String :=
  match l.matcher with
  | .mount m => m
  | _ => ""

/-- The stack `index.js` builds, in registration order (lines 13-15, 46, 50-51, 54, 66,
79-83 and 145). The module `statusRouter` exports a router, so of the two branches at
lines 34-47 the second one mounts it. `app.use('/api/orders', authenticate, orderRouter)`
registers two layers with the same mount. -/
def appStack : List Layer :=
  [ ⟨.all, .expressJson⟩,
    ⟨.all, .cors⟩,
    ⟨.mount "/uploads", .staticUploads⟩,
    ⟨.mount "/api/status", .statusRouter⟩,
    ⟨.mount "/api/products", .productsRouter⟩,
    ⟨.mount "/api/categories", .categoriesRouter⟩,
    ⟨.route .POST "/api/users/login", .postUsersLogin⟩,
    ⟨.route .POST "/api/users/register", .postUsersRegister⟩,
    ⟨.mount "/api", .authenticate⟩,
    ⟨.mount "/api/users", .userRouter⟩,
    ⟨.mount "/api/address", .addressRouter⟩,
    ⟨.mount "/api/contact", .contactRouter⟩,
    ⟨.mount "/api/orders", .authenticate⟩,
    ⟨.mount "/api/orders", .orderRouter⟩,
    ⟨.route .GET "/", .rootPage⟩ ]

/-- Invoking the handler of a layer: the calls made beyond the layer's own function, and
the outcome. The handlers written in `index.js` and `statusRouter.js` run their code, the
others behave as the collaborators do. -/
def invoke (app : App) (l : Layer) (req : Request) : List Call × Outcome :=
  match l.handler with
  | .postUsersLogin => postUsersLogin app req
  | .postUsersRegister => postUsersRegister app req
  | .statusRouter => ([], statusRouterHandle app.proc req)
  | .rootPage => ([], rootPageHandle app.proc)
  | h => ([], app.behaviour h req)

/-- How the handling of a request ends. -/
inductive Final where
  /-- a handler sent this response -/
  | sent (r : Response)
  /-- no layer answered: Express's default "not found" -/
  | notFound
  /-- a handler raised: Express's default error response -/
  | serverError
  deriving DecidableEq, Repr

/-- The handling of one request: the calls made, in order, and how it ended. -/
structure Trace where
  calls : List Call
  final : Final
  deriving DecidableEq, Repr

/-- Express's dispatch over a stack: layers are tried in order; a selected layer's
handler is called; `next()` continues with the rest of the stack, a response or an error
ends the handling. -/
def dispatch (app : App) (req : Request) : List Layer → Trace
  | [] => ⟨[], .notFound⟩
  | l :: rest =>
    if l.selects req then
      match invoke app l req with
      | (sub, .next) =>
        let t := dispatch app req rest
        ⟨⟨l.handler, l.mountPath, req⟩ :: sub ++ t.calls, t.final⟩
      | (sub, .respond r) => ⟨⟨l.handler, l.mountPath, req⟩ :: sub, .sent r⟩
      | (sub, .error) => ⟨⟨l.handler, l.mountPath, req⟩ :: sub, .serverError⟩
    else
      dispatch app req rest

/-- The handling of a request by the application. -/
def handle (app : App) (req : Request) : Trace :=
  dispatch app req appStack

/-- The bindings registered before `app.use("/api", authenticate)`. -/
def beforeGuard : List Layer :=
  appStack.take 8

/-- The bindings registered from `app.use("/api", authenticate)` on. -/
def fromGuard : List Layer :=
  appStack.drop 8

/-- The request was not answered by a binding registered before the guard: every such
binding that selected it passed it on. -/
def reachesGuard (app : App) (req : Request) : Prop :=
  (dispatch app req beforeGuard).final = Final.notFound

/-- The handler groups mounted without a guard, with their mount paths. -/
def publicGroups : List (String × Handler) :=
  [("/api/products", .productsRouter), ("/api/categories", .categoriesRouter)]

/-- The handler groups mounted behind the guard, with their mount paths. -/
def guardedGroups : List (String × Handler) :=
  [ ("/api/users", .userRouter), ("/api/address", .addressRouter),
    ("/api/contact", .contactRouter), ("/api/orders", .orderRouter) ]

/-- The two carve-outs: the path of the application route, the application handler, the
path looked up inside `userRouter`, and the message of the 404 answer. -/
def carveOuts : List (String × Handler × String × String) :=
  [ ("/api/users/login", .postUsersLogin, "/login", "Login endpoint not configured properly"),
    ("/api/users/register", .postUsersRegister, "/register",
      "Register endpoint not configured properly") ]

/-- The guard was called (under any mount) while handling the request. -/
def guardInvoked (t : Trace) : Prop :=
  ∃ c ∈ t.calls, c.handler = Handler.authenticate

/-- The calls of the guard, in order. -/
def guardCalls (t : Trace) : List Call :=
  t.calls.filter (fun c => c.handler == Handler.authenticate)

/-- The path is the mount itself, or continues it after a slash. -/
def liesUnder (mount path : String) : Prop :=
  path = mount ∨ ∃ rest : String, path = mount ++ "/" ++ rest

/-- The guard calls made on the way to a guarded group: one under `/api`, and for the
orders group a second one under `/api/orders`. -/
def guardCallsFor (mount : String) (req : Request) : List Call :=
  if mount = "/api/orders" then
    [⟨.authenticate, "/api", req⟩, ⟨.authenticate, "/api/orders", req⟩]
  else
    [⟨.authenticate, "/api", req⟩]

/-! ## Sample collaborators, for the concrete instances -/

/-- A process outside production that has been up for 3661 seconds. -/
def sampleProcess : Process :=
  { nodeEnv := some "development"
    packageVersion := some "1.0.0"
    uptime := 3661
    isoNow := "2024-05-01T10:00:00.000Z"
    localeNow := "5/1/2024, 10:00:00 AM"
    memoryUsedMB := "51.25"
    memoryTotalMB := "7962.4"
    platform := "linux"
    nodeVersion := "v18.19.0" }

/-- A route that accepts `POST` only. -/
def postOnly (m : Method) : Bool :=
  m == .POST

/-- A user router as Express builds it: a middleware layer, then `POST /login` and
`POST /register` with one handler each. -/
def sampleUserStack : List RouterLayer :=
  [ ⟨none⟩,
    ⟨some ⟨"/login", postOnly, [⟨some "login"⟩]⟩⟩,
    ⟨some ⟨"/register", postOnly, [⟨some "register"⟩]⟩⟩ ]

/-- A user router built with `router.post('/login', validate, login)`: the route's stack
holds the middleware first and the login handler second. -/
def middlewareUserStack : List RouterLayer :=
  [⟨some ⟨"/login", postOnly, [⟨some "validate"⟩, ⟨some "login"⟩]⟩⟩]

/-- A user router that has a register route and no login route. -/
def loginlessUserStack : List RouterLayer :=
  [⟨none⟩, ⟨some ⟨"/register", postOnly, [⟨some "register"⟩]⟩⟩]

/-- The guard of the samples: a request with credentials passes, one without is answered
with 401. -/
def sampleGuard (req : Request) : Outcome :=
  match req.authorization with
  | some _ => .next
  | none => .respond ⟨401, [], .json [("error", .str "Unauthorized")]⟩

/-- Collaborators that answer: body parser and CORS middleware pass the request on, the
guard checks the credentials, every other handler responds with 200. -/
def answering : Handler → Request → Outcome
  | .expressJson, _ => .next
  | .cors, _ => .next
  | .authenticate, req => sampleGuard req
  | _, _ => .respond ⟨200, [], .other "done"⟩

/-- Collaborators that pass on: the guard checks the credentials, every other handler
calls `next()` (the static server has no such file, a router has no such route, a
handler defers to the next one). -/
def passingOn : Handler → Request → Outcome
  | .authenticate, req => sampleGuard req
  | _, _ => .next

/-- An application whose handlers answer. -/
def answeringApp : App :=
  ⟨answering, sampleUserStack, sampleProcess⟩

/-- An application whose handlers pass every request on. -/
def passingApp : App :=
  ⟨passingOn, sampleUserStack, sampleProcess⟩

/-- Collaborators of a login route with a middleware in front: the middleware (any
extracted function other than the login handler) calls `next()`, the login handler and the
routers respond, the guard checks the credentials. -/
def deferring : Handler → Request → Outcome
  | .expressJson, _ => .next
  | .cors, _ => .next
  | .authenticate, req => sampleGuard req
  | .routeHandler label, _ =>
    if label = "login" then .respond ⟨200, [], .other "token"⟩ else .next
  | _, _ => .respond ⟨200, [], .other "done"⟩

/-- An application whose login route has a middleware in front of the login handler. -/
def middlewareApp : App :=
  ⟨deferring, middlewareUserStack, sampleProcess⟩

/-- An application whose user router has no login route. -/
def loginlessApp : App :=
  ⟨answering, loginlessUserStack, sampleProcess⟩


/-! ## Path matching: auxiliary facts -/

/-- Stripping a mount succeeds exactly on the lists that start with it. -/
theorem stripMount_eq_some (m l r : List Char) : stripMount m l = some r ↔ l = m ++ r := by
  induction m generalizing l with
  | nil => simp [stripMount, eq_comm]
  | cons c cs ih =>
    cases l with
    | nil => simp [stripMount]
    | cons d ds =>
      by_cases h : c = d
      · simp [stripMount, h, ih]
      · simp [stripMount, h, Ne.symm h]

/-- The mount test, spelled out: the lowered path is the mount followed by nothing or by
something that starts with a slash. -/
theorem mountMatches_iff (m p : String) :
    mountMatches m p = true ↔
      ∃ r, lowered p = m.toList ++ r ∧ (r = [] ∨ ∃ t, r = '/' :: t) := by
  unfold mountMatches
  constructor
  · intro h
    split at h
    · next e => exact ⟨[], (stripMount_eq_some _ _ _).1 e, Or.inl rfl⟩
    · next c t e =>
      refine ⟨c :: t, (stripMount_eq_some _ _ _).1 e, Or.inr ⟨t, ?_⟩⟩
      simp at h; rw [h]
    · simp at h
  · rintro ⟨r, hr, h⟩
    rw [(stripMount_eq_some _ _ _).2 hr]
    rcases h with rfl | ⟨t, rfl⟩ <;> simp

/-- The other matchers of `index.js` on a path under `/uploads`. -/
theorem under_uploads (p : String) (h : mountMatches "/uploads" p = true) :
    mountMatches "/api/status" p = false ∧ mountMatches "/api/products" p = false ∧
    mountMatches "/api/categories" p = false ∧ routeMatches "/api/users/login" p = false ∧
    routeMatches "/api/users/register" p = false ∧ mountMatches "/api" p = false ∧
    mountMatches "/api/users" p = false ∧ mountMatches "/api/address" p = false ∧
    mountMatches "/api/contact" p = false ∧ mountMatches "/api/orders" p = false ∧
    routeMatches "/" p = false := by
  obtain ⟨r, hr, hh⟩ := (mountMatches_iff _ _).1 h
  rcases hh with rfl | ⟨t, rfl⟩ <;>
    simp +decide [mountMatches, routeMatches, routeMatchesChars, hr, stripMount]

/-- The other matchers of `index.js` on a path under `/api/products`. -/
theorem under_products (p : String) (h : mountMatches "/api/products" p = true) :
    mountMatches "/uploads" p = false ∧ mountMatches "/api/status" p = false ∧
    mountMatches "/api/categories" p = false ∧ routeMatches "/api/users/login" p = false ∧
    routeMatches "/api/users/register" p = false ∧ mountMatches "/api" p = true ∧
    mountMatches "/api/users" p = false ∧ mountMatches "/api/address" p = false ∧
    mountMatches "/api/contact" p = false ∧ mountMatches "/api/orders" p = false ∧
    routeMatches "/" p = false := by
  obtain ⟨r, hr, hh⟩ := (mountMatches_iff _ _).1 h
  rcases hh with rfl | ⟨t, rfl⟩ <;>
    simp +decide [mountMatches, routeMatches, routeMatchesChars, hr, stripMount]

/-- The other matchers of `index.js` on the path of the login route. -/
theorem under_login (p : String) (h : routeMatches "/api/users/login" p = true) :
    mountMatches "/uploads" p = false ∧ mountMatches "/api/status" p = false ∧
    mountMatches "/api/products" p = false ∧ mountMatches "/api/categories" p = false ∧
    routeMatches "/api/users/register" p = false ∧ mountMatches "/api" p = true ∧
    mountMatches "/api/users" p = true ∧ mountMatches "/api/address" p = false ∧
    mountMatches "/api/contact" p = false ∧ mountMatches "/api/orders" p = false ∧
    routeMatches "/" p = false := by
  have hh : lowered p = "/api/users/login".toList ∨
      lowered p = "/api/users/login".toList ++ ['/'] := by
    simpa [routeMatches, routeMatchesChars] using h
  rcases hh with hr | hr <;>
    simp +decide [mountMatches, routeMatches, routeMatchesChars, hr, stripMount]

/-- The other matchers of `index.js` on a path under `/api/categories`. -/
theorem under_categories (p : String) (h : mountMatches "/api/categories" p = true) :
    mountMatches "/uploads" p = false ∧ mountMatches "/api/status" p = false ∧
    mountMatches "/api/products" p = false ∧ routeMatches "/api/users/login" p = false ∧
    routeMatches "/api/users/register" p = false ∧ mountMatches "/api" p = true ∧
    mountMatches "/api/users" p = false ∧ mountMatches "/api/address" p = false ∧
    mountMatches "/api/contact" p = false ∧ mountMatches "/api/orders" p = false ∧
    routeMatches "/" p = false := by
  obtain ⟨r, hr, hh⟩ := (mountMatches_iff _ _).1 h
  rcases hh with rfl | ⟨t, rfl⟩ <;>
    simp +decide [mountMatches, routeMatches, routeMatchesChars, hr, stripMount]

/-- The other matchers of `index.js` on the path of the register route. -/
theorem under_register (p : String) (h : routeMatches "/api/users/register" p = true) :
    mountMatches "/uploads" p = false ∧ mountMatches "/api/status" p = false ∧
    mountMatches "/api/products" p = false ∧ mountMatches "/api/categories" p = false ∧
    routeMatches "/api/users/login" p = false ∧ mountMatches "/api" p = true ∧
    mountMatches "/api/users" p = true ∧ mountMatches "/api/address" p = false ∧
    mountMatches "/api/contact" p = false ∧ mountMatches "/api/orders" p = false ∧
    routeMatches "/" p = false := by
  have hh : lowered p = "/api/users/register".toList ∨
      lowered p = "/api/users/register".toList ++ ['/'] := by
    simpa [routeMatches, routeMatchesChars] using h
  rcases hh with hr | hr <;>
    simp +decide [mountMatches, routeMatches, routeMatchesChars, hr, stripMount]

/-- Express's mount test accepts every path that is the mount or lies under it, for a
mount written in lower case (as all mounts of `index.js` are). -/
theorem mountMatches_of_liesUnder (mount path : String) (hlow : lowered mount = mount.toList)
    (h : liesUnder mount path) : mountMatches mount path = true := by
  rw [mountMatches_iff]
  rcases h with rfl | ⟨rest, rfl⟩
  · exact ⟨[], by simp [hlow], Or.inl rfl⟩
  · refine ⟨'/' :: lowered rest, ?_, Or.inr ⟨_, rfl⟩⟩
    have hslash : Char.toLower '/' = '/' := by decide
    unfold lowered at hlow ⊢
    have hdata : List.map Char.toLower mount.data = mount.data := hlow
    simp [hdata, hslash]

/-- The mounts of `index.js` accept the paths that lie under them. -/
theorem mounts_accept_paths_under (path : String) :
    ∀ mount ∈ ["/uploads", "/api/status", "/api/products", "/api/categories", "/api",
        "/api/users", "/api/address", "/api/contact", "/api/orders"],
      liesUnder mount path → mountMatches mount path = true := by
  intro mount hmount hunder
  refine mountMatches_of_liesUnder mount path ?_ hunder
  simp only [List.mem_cons, List.mem_singleton, List.not_mem_nil, or_false] at hmount
  rcases hmount with rfl | rfl | rfl | rfl | rfl | rfl | rfl | rfl | rfl <;> decide

/-! ## Dispatch: auxiliary facts -/

/-- Dispatch over two stacks in a row: the second one is consulted only when the first
one leaves the request unanswered. -/
theorem dispatch_append (app : App) (req : Request) (xs ys : List Layer) :
    dispatch app req (xs ++ ys) =
      if (dispatch app req xs).final = Final.notFound then
        ⟨(dispatch app req xs).calls ++ (dispatch app req ys).calls, (dispatch app req ys).final⟩
      else dispatch app req xs := by
  induction xs with
  | nil => simp [dispatch]
  | cons l rest ih =>
    simp only [List.cons_append, dispatch]
    by_cases hs : l.selects req = true
    · simp only [hs, if_true]
      rcases hi : invoke app l req with ⟨sub, o⟩
      cases o with
      | respond r => simp
      | error => simp
      | next =>
        by_cases hf : (dispatch app req rest).final = Final.notFound <;> simp [ih, hf]
    · simp only [hs]
      simpa using ih

/-- The only calls a layer's handler makes itself are those of handlers extracted from
`userRouter`. -/
theorem invoke_calls (app : App) (l : Layer) (req : Request) (c : Call)
    (h : c ∈ (invoke app l req).1) : ∃ label, c = ⟨.routeHandler label, "", req⟩ := by
  unfold invoke at h
  split at h
  · unfold postUsersLogin carveOut at h
    split at h <;> simp at h
    exact ⟨_, h⟩
  · unfold postUsersRegister carveOut at h
    split at h <;> simp at h
    exact ⟨_, h⟩
  all_goals simp at h

/-- Every call of a dispatch is the call of a layer that selects the request, or the call
of a handler extracted from `userRouter`. -/
theorem dispatch_calls (app : App) (req : Request) (stack : List Layer) (c : Call)
    (h : c ∈ (dispatch app req stack).calls) :
    (∃ l ∈ stack, l.selects req = true ∧ c = ⟨l.handler, l.mountPath, req⟩) ∨
      ∃ label, c = ⟨.routeHandler label, "", req⟩ := by
  induction stack with
  | nil => simp [dispatch] at h
  | cons l rest ih =>
    simp only [dispatch] at h
    by_cases hs : l.selects req = true
    · simp only [hs, if_true] at h
      have key : c = ⟨l.handler, l.mountPath, req⟩ ∨ c ∈ (invoke app l req).1 ∨
          c ∈ (dispatch app req rest).calls := by
        rcases hi : invoke app l req with ⟨sub, o⟩
        rw [hi] at h
        cases o <;> simp at h <;> simp <;> tauto
      rcases key with rfl | hk | hk
      · exact Or.inl ⟨l, by simp, hs, rfl⟩
      · exact Or.inr (invoke_calls app l req c hk)
      · rcases ih hk with ⟨l', hl', h1, h2⟩ | h'
        · exact Or.inl ⟨l', by simp [hl'], h1, h2⟩
        · exact Or.inr h'
    · simp only [hs] at h
      rcases ih (by simpa using h) with ⟨l', hl', h1, h2⟩ | h'
      · exact Or.inl ⟨l', by simp [hl'], h1, h2⟩
      · exact Or.inr h'

/-- The stack is the bindings before the guard followed by those from the guard on. -/
theorem appStack_split : appStack = beforeGuard ++ fromGuard := by
  simp [beforeGuard, fromGuard]

/-- The handling of a request, split at the guard. -/
theorem handle_split (app : App) (req : Request) :
    handle app req =
      if (dispatch app req beforeGuard).final = Final.notFound then
        ⟨(dispatch app req beforeGuard).calls ++ (dispatch app req fromGuard).calls,
          (dispatch app req fromGuard).final⟩
      else dispatch app req beforeGuard := by
  unfold handle
  rw [appStack_split, dispatch_append]

/-- No binding registered before the guard calls the guard or a guarded group. -/
theorem beforeGuard_calls (app : App) (req : Request) (c : Call)
    (h : c ∈ (dispatch app req beforeGuard).calls) :
    c.handler ≠ .authenticate ∧ c.handler ≠ .userRouter ∧ c.handler ≠ .addressRouter ∧
      c.handler ≠ .contactRouter ∧ c.handler ≠ .orderRouter := by
  rcases dispatch_calls app req _ c h with ⟨l, hl, -, rfl⟩ | ⟨label, rfl⟩
  · simp [beforeGuard, appStack] at hl
    rcases hl with rfl | rfl | rfl | rfl | rfl | rfl | rfl | rfl <;> simp
  · simp

/-- The matchers registered from the guard on, for a path under a guarded mount. -/
theorem under_guarded (p : String) :
    (mountMatches "/api/users" p = true →
      mountMatches "/api" p = true ∧ mountMatches "/api/address" p = false ∧
      mountMatches "/api/contact" p = false ∧ mountMatches "/api/orders" p = false ∧
      routeMatches "/" p = false) ∧
    (mountMatches "/api/address" p = true →
      mountMatches "/api" p = true ∧ mountMatches "/api/users" p = false ∧
      mountMatches "/api/contact" p = false ∧ mountMatches "/api/orders" p = false ∧
      routeMatches "/" p = false) ∧
    (mountMatches "/api/contact" p = true →
      mountMatches "/api" p = true ∧ mountMatches "/api/users" p = false ∧
      mountMatches "/api/address" p = false ∧ mountMatches "/api/orders" p = false ∧
      routeMatches "/" p = false) ∧
    (mountMatches "/api/orders" p = true →
      mountMatches "/api" p = true ∧ mountMatches "/api/users" p = false ∧
      mountMatches "/api/address" p = false ∧ mountMatches "/api/contact" p = false ∧
      routeMatches "/" p = false) := by
  refine ⟨?_, ?_, ?_, ?_⟩ <;> intro h <;>
    obtain ⟨r, hr, hh⟩ := (mountMatches_iff _ _).1 h <;>
    rcases hh with rfl | ⟨t, rfl⟩ <;>
    simp +decide [mountMatches, routeMatches, routeMatchesChars, hr, stripMount]

/-- What the bindings registered from the guard on do with a request under a guarded
mount. -/
theorem fromGuard_calls (app : App) (req : Request) (mount : String) (group : Handler)
    (hg : (mount, group) ∈ guardedGroups) (hm : mountMatches mount req.path = true) :
    (dispatch app req fromGuard).calls =
      if app.behaviour .authenticate req = .next then
        guardCallsFor mount req ++ [⟨group, mount, req⟩]
      else [⟨.authenticate, "/api", req⟩] := by
  simp only [guardedGroups, List.mem_cons, Prod.mk.injEq, List.mem_singleton, List.not_mem_nil,
    or_false] at hg
  rcases hg with ⟨rfl, rfl⟩ | ⟨rfl, rfl⟩ | ⟨rfl, rfl⟩ | ⟨rfl, rfl⟩
  · obtain ⟨h1, h2, h3, h4, h5⟩ := (under_guarded req.path).1 hm
    cases ha : app.behaviour .authenticate req <;>
      cases hb : app.behaviour .userRouter req <;>
      simp +decide [fromGuard, appStack, dispatch, Layer.selects, Layer.mountPath, invoke,
        guardCallsFor, hm, h1, h2, h3, h4, h5, ha, hb]
  · obtain ⟨h1, h2, h3, h4, h5⟩ := (under_guarded req.path).2.1 hm
    cases ha : app.behaviour .authenticate req <;>
      cases hb : app.behaviour .addressRouter req <;>
      simp +decide [fromGuard, appStack, dispatch, Layer.selects, Layer.mountPath, invoke,
        guardCallsFor, hm, h1, h2, h3, h4, h5, ha, hb]
  · obtain ⟨h1, h2, h3, h4, h5⟩ := (under_guarded req.path).2.2.1 hm
    cases ha : app.behaviour .authenticate req <;>
      cases hb : app.behaviour .contactRouter req <;>
      simp +decide [fromGuard, appStack, dispatch, Layer.selects, Layer.mountPath, invoke,
        guardCallsFor, hm, h1, h2, h3, h4, h5, ha, hb]
  · obtain ⟨h1, h2, h3, h4, h5⟩ := (under_guarded req.path).2.2.2 hm
    cases ha : app.behaviour .authenticate req <;>
      cases hb : app.behaviour .orderRouter req <;>
      simp +decide [fromGuard, appStack, dispatch, Layer.selects, Layer.mountPath, invoke,
        guardCallsFor, hm, h1, h2, h3, h4, h5, ha, hb]

/-- A request under a guarded mount that the guard answers ends with the guard's
response. -/
theorem fromGuard_rejected (app : App) (req : Request) (mount : String) (group : Handler)
    (hg : (mount, group) ∈ guardedGroups) (hm : mountMatches mount req.path = true)
    (r : Response) (hr : app.behaviour .authenticate req = .respond r) :
    (dispatch app req fromGuard).final = .sent r := by
  have hapi : mountMatches "/api" req.path = true := by
    simp only [guardedGroups, List.mem_cons, Prod.mk.injEq, List.mem_singleton,
      List.not_mem_nil, or_false] at hg
    rcases hg with ⟨rfl, -⟩ | ⟨rfl, -⟩ | ⟨rfl, -⟩ | ⟨rfl, -⟩
    · exact ((under_guarded req.path).1 hm).1
    · exact ((under_guarded req.path).2.1 hm).1
    · exact ((under_guarded req.path).2.2.1 hm).1
    · exact ((under_guarded req.path).2.2.2 hm).1
  simp +decide [fromGuard, appStack, dispatch, Layer.selects, invoke, hapi, hr]

/-! ## Static assets and the public groups -/

/-- C8. A request whose path is `/uploads` or lies under it never reaches the guard,
whatever the body parser, the CORS middleware and the static file server do with it (in
particular whether the static server finds the file and responds, or passes the request
on). -/
theorem uploads_never_reach_guard (app : App) (req : Request)
    (h : mountMatches "/uploads" req.path = true) : ¬ guardInvoked (handle app req) := by
  obtain ⟨h1, h2, h3, h4, h5, h6, h7, h8, h9, h10, h11⟩ := under_uploads req.path h
  unfold guardInvoked
  cases ha : app.behaviour .expressJson req <;> cases hb : app.behaviour .cors req <;>
    cases hc : app.behaviour .staticUploads req <;>
    simp +decide [handle, appStack, dispatch, Layer.selects, Layer.mountPath, invoke,
      h, h1, h2, h3, h4, h5, h6, h7, h8, h9, h10, h11, ha, hb, hc]

/-- C8, at a concrete request: a file that the static server does not have is passed on,
and the guard is still not called. -/
theorem uploads_never_reach_guard_witness :
    mountMatches "/uploads" "/uploads/missing.png" = true ∧
      passingOn .staticUploads ⟨.GET, "/uploads/missing.png", none⟩ = .next ∧
      ¬ guardInvoked (handle passingApp ⟨.GET, "/uploads/missing.png", none⟩) :=
  ⟨by decide, rfl, uploads_never_reach_guard passingApp _ (by decide)⟩

/-- C1 fails as stated: when the products router passes a request under `/api/products`
on (here a path it has no route for), the request goes on to the guard mounted on `/api`,
which is called and, without credentials, answers 401. -/
theorem products_pass_reaches_guard :
    mountMatches "/api/products" "/api/products/unknown" = true ∧
      passingApp.behaviour .productsRouter ⟨.GET, "/api/products/unknown", none⟩ = .next ∧
      handle passingApp ⟨.GET, "/api/products/unknown", none⟩ =
        ⟨[ ⟨.expressJson, "", ⟨.GET, "/api/products/unknown", none⟩⟩,
           ⟨.cors, "", ⟨.GET, "/api/products/unknown", none⟩⟩,
           ⟨.productsRouter, "/api/products", ⟨.GET, "/api/products/unknown", none⟩⟩,
           ⟨.authenticate, "/api", ⟨.GET, "/api/products/unknown", none⟩⟩ ],
         .sent ⟨401, [], .json [("error", .str "Unauthorized")]⟩⟩ ∧
      guardInvoked (handle passingApp ⟨.GET, "/api/products/unknown", none⟩) := by
  refine ⟨by decide, by decide, by decide, ?_⟩
  exact ⟨⟨.authenticate, "/api", ⟨.GET, "/api/products/unknown", none⟩⟩, by decide, rfl⟩

/-- C1, as amended. A request whose path is `/api/products` or `/api/categories` or lies
under one of them never reaches the guard when the handler group mounted there answers it
(responds or raises, that is, does not pass it on). -/
theorem public_group_answer_skips_guard (app : App) (req : Request) (mount : String)
    (group : Handler) (hg : (mount, group) ∈ publicGroups)
    (hm : mountMatches mount req.path = true) (ho : app.behaviour group req ≠ .next) :
    ¬ guardInvoked (handle app req) := by
  simp only [publicGroups, List.mem_cons, Prod.mk.injEq, List.mem_singleton, List.not_mem_nil,
    or_false] at hg
  unfold guardInvoked
  rcases hg with ⟨rfl, rfl⟩ | ⟨rfl, rfl⟩
  · obtain ⟨h1, h2, h3, h4, h5, h6, h7, h8, h9, h10, h11⟩ := under_products req.path hm
    cases hc : app.behaviour .productsRouter req
    case next => exact absurd hc ho
    all_goals
      cases ha : app.behaviour .expressJson req <;> cases hb : app.behaviour .cors req <;>
        simp +decide [handle, appStack, dispatch, Layer.selects, Layer.mountPath, invoke,
          hm, h1, h2, h3, h4, h5, h6, h7, h8, h9, h10, h11, ha, hb, hc]
  · obtain ⟨h1, h2, h3, h4, h5, h6, h7, h8, h9, h10, h11⟩ := under_categories req.path hm
    cases hc : app.behaviour .categoriesRouter req
    case next => exact absurd hc ho
    all_goals
      cases ha : app.behaviour .expressJson req <;> cases hb : app.behaviour .cors req <;>
        simp +decide [handle, appStack, dispatch, Layer.selects, Layer.mountPath, invoke,
          hm, h1, h2, h3, h4, h5, h6, h7, h8, h9, h10, h11, ha, hb, hc]

/-- C1, as amended, at a concrete request: the products router answers, the guard is not
called, although the request carries no credentials. -/
theorem public_group_answer_skips_guard_witness :
    ¬ guardInvoked (handle answeringApp ⟨.GET, "/api/products/7", none⟩) :=
  public_group_answer_skips_guard answeringApp ⟨.GET, "/api/products/7", none⟩
    "/api/products" .productsRouter (by decide) (by decide) (by decide)

/-- The other half of the picture for the public groups: a request that the body parser,
the CORS middleware and the group itself pass on does reach the guard. -/
theorem public_group_pass_reaches_guard (app : App) (req : Request) (mount : String)
    (group : Handler) (hg : (mount, group) ∈ publicGroups)
    (hm : mountMatches mount req.path = true)
    (hj : app.behaviour .expressJson req = .next) (hcors : app.behaviour .cors req = .next)
    (ho : app.behaviour group req = .next) :
    guardInvoked (handle app req) := by
  simp only [publicGroups, List.mem_cons, Prod.mk.injEq, List.mem_singleton, List.not_mem_nil,
    or_false] at hg
  refine ⟨⟨.authenticate, "/api", req⟩, ?_, rfl⟩
  rcases hg with ⟨rfl, rfl⟩ | ⟨rfl, rfl⟩
  · obtain ⟨h1, h2, h3, h4, h5, h6, h7, h8, h9, h10, h11⟩ := under_products req.path hm
    cases ha : app.behaviour .authenticate req <;>
      simp +decide [handle, appStack, dispatch, Layer.selects, Layer.mountPath, invoke,
        hm, h1, h2, h3, h4, h5, h6, h7, h8, h9, h10, h11, ha, hj, hcors, ho]
  · obtain ⟨h1, h2, h3, h4, h5, h6, h7, h8, h9, h10, h11⟩ := under_categories req.path hm
    cases ha : app.behaviour .authenticate req <;>
      simp +decide [handle, appStack, dispatch, Layer.selects, Layer.mountPath, invoke,
        hm, h1, h2, h3, h4, h5, h6, h7, h8, h9, h10, h11, ha, hj, hcors, ho]

/-! ## The guarded groups -/

/-- C2. For a request under `/api/users`, `/api/address`, `/api/contact` or `/api/orders`:
when the guard rejects it (does not call `next`), the handler group mounted there is never
called, and if no binding registered before the guard answered the request, the guard's
response is the response; when the guard passes it and no binding registered before the
guard answered it, the handler group is called with that request. -/
theorem guarded_group_behind_guard (app : App) (req : Request) (mount : String)
    (group : Handler) (hg : (mount, group) ∈ guardedGroups)
    (hm : mountMatches mount req.path = true) :
    (app.behaviour .authenticate req ≠ .next →
        ∀ c ∈ (handle app req).calls, c.handler ≠ group) ∧
      (∀ r, app.behaviour .authenticate req = .respond r → reachesGuard app req →
        (handle app req).final = .sent r) ∧
      (app.behaviour .authenticate req = .next → reachesGuard app req →
        ⟨group, mount, req⟩ ∈ (handle app req).calls) := by
  have hgroup : group = .userRouter ∨ group = .addressRouter ∨ group = .contactRouter ∨
      group = .orderRouter := by
    simp only [guardedGroups, List.mem_cons, Prod.mk.injEq, List.mem_singleton,
      List.not_mem_nil, or_false] at hg
    tauto
  have hfrom := fromGuard_calls app req mount group hg hm
  refine ⟨?_, ?_, ?_⟩
  · intro hrej c hc hcg
    rw [handle_split] at hc
    have hpre : c ∉ (dispatch app req beforeGuard).calls := by
      intro hin
      have := beforeGuard_calls app req c hin
      rw [hcg] at this
      rcases hgroup with h | h | h | h <;> rw [h] at this <;> simp at this
    split at hc
    · simp only [List.mem_append, hfrom, hrej, if_false, List.mem_singleton] at hc
      rcases hc with hc | hc
      · exact hpre hc
      · rw [hc] at hcg
        rcases hgroup with h | h | h | h <;> rw [h] at hcg <;> simp at hcg
    · exact hpre hc
  · intro r hr hreach
    unfold reachesGuard at hreach
    rw [handle_split, if_pos hreach]
    exact fromGuard_rejected app req mount group hg hm r hr
  · intro hpass hreach
    unfold reachesGuard at hreach
    rw [handle_split, if_pos hreach]
    simp [hfrom, hpass]

/-- C2, at concrete requests to `/api/orders/1`: without credentials the guard rejects,
the order router is not called and the answer is the guard's 401; with credentials the
guard passes and the order router is called with the request. -/
theorem guarded_group_behind_guard_witness :
    (∀ c ∈ (handle answeringApp ⟨.GET, "/api/orders/1", none⟩).calls,
      c.handler ≠ .orderRouter) ∧
    (handle answeringApp ⟨.GET, "/api/orders/1", none⟩).final =
      .sent ⟨401, [], .json [("error", .str "Unauthorized")]⟩ ∧
    (⟨.orderRouter, "/api/orders", ⟨.GET, "/api/orders/1", some "Bearer t"⟩⟩ : Call) ∈
      (handle answeringApp ⟨.GET, "/api/orders/1", some "Bearer t"⟩).calls :=
  ⟨(guarded_group_behind_guard answeringApp ⟨.GET, "/api/orders/1", none⟩ "/api/orders"
      .orderRouter (by decide) (by decide)).1 (by decide),
   (guarded_group_behind_guard answeringApp ⟨.GET, "/api/orders/1", none⟩ "/api/orders"
      .orderRouter (by decide) (by decide)).2.1 _ rfl (by unfold reachesGuard; decide),
   (guarded_group_behind_guard answeringApp ⟨.GET, "/api/orders/1", some "Bearer t"⟩
      "/api/orders" .orderRouter (by decide) (by decide)).2.2 (by decide)
      (by unfold reachesGuard; decide)⟩

/-- In the application's stack a guarded group sits only under its own mount. -/
theorem guarded_layer :
    ∀ l ∈ appStack, ∀ mg ∈ guardedGroups, l.handler = mg.2 → l.matcher = Matcher.mount mg.1 := by
  decide

/-- A call of a guarded group comes from its mount: the path is under the mount, the
guard passed, and the calls are those made before the guard, the guard calls, and the
group. -/
theorem guarded_group_called (app : App) (req : Request) (mount : String) (group : Handler)
    (hg : (mount, group) ∈ guardedGroups)
    (hc : ∃ c ∈ (handle app req).calls, c.handler = group) :
    app.behaviour .authenticate req = .next ∧
      (handle app req).calls =
        (dispatch app req beforeGuard).calls ++
          (guardCallsFor mount req ++ [⟨group, mount, req⟩]) := by
  obtain ⟨c, hc, hcg⟩ := hc
  have hgroup : group = .userRouter ∨ group = .addressRouter ∨ group = .contactRouter ∨
      group = .orderRouter := by
    simp only [guardedGroups, List.mem_cons, Prod.mk.injEq, List.mem_singleton,
      List.not_mem_nil, or_false] at hg
    tauto
  have hm : mountMatches mount req.path = true := by
    rcases dispatch_calls app req _ c hc with ⟨l, hl, hs, rfl⟩ | ⟨label, rfl⟩
    · have hmatch := guarded_layer l hl (mount, group) hg hcg
      simpa [Layer.selects, hmatch] using hs
    · rcases hgroup with h | h | h | h <;> rw [h] at hcg <;> simp at hcg
  have hpre : c ∉ (dispatch app req beforeGuard).calls := by
    intro hin
    have := beforeGuard_calls app req c hin
    rw [hcg] at this
    rcases hgroup with h | h | h | h <;> rw [h] at this <;> simp at this
  have hfrom := fromGuard_calls app req mount group hg hm
  rw [handle_split] at hc ⊢
  split at hc
  · next hfin =>
    rw [if_pos hfin]
    simp only [List.mem_append] at hc
    rcases hc with hc | hc
    · exact absurd hc hpre
    · by_cases hpass : app.behaviour .authenticate req = .next
      · exact ⟨hpass, by simp [hfrom, hpass]⟩
      · exfalso
        simp only [hfrom, hpass, if_false, List.mem_singleton] at hc
        rw [hc] at hcg
        rcases hgroup with h | h | h | h <;> rw [h] at hcg <;> simp at hcg
  · exact absurd hc hpre

/-- No binding registered before the guard calls the guard. -/
theorem beforeGuard_no_guard (app : App) (req : Request) :
    ∀ c ∈ (dispatch app req beforeGuard).calls, c.handler ≠ .authenticate :=
  fun c hc => (beforeGuard_calls app req c hc).1

/-- The calls made before the guard contain no guard call. -/
theorem beforeGuard_guardCalls (app : App) (req : Request) :
    (dispatch app req beforeGuard).calls.filter (fun c => c.handler == Handler.authenticate)
      = [] := by
  rw [List.filter_eq_nil_iff]
  intro c hc
  simpa using beforeGuard_no_guard app req c hc

/-- C9. A request that reaches `orderRouter` has had the guard called exactly twice, first
under the `/api` mount and then under the `/api/orders` mount, and the guard passed it;
a request that reaches `userRouter`, `addressRouter` or `contactRouter` through its mount
has had the guard called exactly once, under `/api`, and the guard passed it. In both
cases the guard calls come right before the call of the group, which ends the calls. -/
theorem guard_calls_on_the_way (app : App) (req : Request) :
    ((∃ c ∈ (handle app req).calls, c.handler = .orderRouter) →
      app.behaviour .authenticate req = .next ∧
      guardCalls (handle app req) =
        [⟨.authenticate, "/api", req⟩, ⟨.authenticate, "/api/orders", req⟩] ∧
      ∃ pre, (∀ c ∈ pre, c.handler ≠ .authenticate) ∧
        (handle app req).calls =
          pre ++ [⟨.authenticate, "/api", req⟩, ⟨.authenticate, "/api/orders", req⟩,
            ⟨.orderRouter, "/api/orders", req⟩]) ∧
    (∀ mount group,
      (mount, group) ∈ [("/api/users", Handler.userRouter), ("/api/address", .addressRouter),
        ("/api/contact", .contactRouter)] →
      (∃ c ∈ (handle app req).calls, c.handler = group) →
      app.behaviour .authenticate req = .next ∧
      guardCalls (handle app req) = [⟨.authenticate, "/api", req⟩] ∧
      ∃ pre, (∀ c ∈ pre, c.handler ≠ .authenticate) ∧
        (handle app req).calls = pre ++ [⟨.authenticate, "/api", req⟩, ⟨group, mount, req⟩]) := by
  constructor
  · intro hc
    obtain ⟨hpass, hcalls⟩ :=
      guarded_group_called app req "/api/orders" .orderRouter (by simp [guardedGroups]) hc
    refine ⟨hpass, ?_, (dispatch app req beforeGuard).calls, beforeGuard_no_guard app req, ?_⟩
    · unfold guardCalls
      rw [hcalls, List.filter_append, beforeGuard_guardCalls]
      simp +decide [guardCallsFor]
    · rw [hcalls]; simp [guardCallsFor]
  · intro mount group hg hc
    have hg' : (mount, group) ∈ guardedGroups := by
      simp only [List.mem_cons, Prod.mk.injEq, List.mem_singleton, List.not_mem_nil,
        or_false] at hg
      simp only [guardedGroups, List.mem_cons, Prod.mk.injEq, List.mem_singleton,
        List.not_mem_nil, or_false]
      tauto
    have hmount : mount ≠ "/api/orders" := by
      simp only [List.mem_cons, Prod.mk.injEq, List.mem_singleton, List.not_mem_nil,
        or_false] at hg
      rcases hg with ⟨rfl, -⟩ | ⟨rfl, -⟩ | ⟨rfl, -⟩ <;> decide
    have hgroup : group ≠ .authenticate := by
      simp only [List.mem_cons, Prod.mk.injEq, List.mem_singleton, List.not_mem_nil,
        or_false] at hg
      rcases hg with ⟨-, rfl⟩ | ⟨-, rfl⟩ | ⟨-, rfl⟩ <;> decide
    obtain ⟨hpass, hcalls⟩ := guarded_group_called app req mount group hg' hc
    refine ⟨hpass, ?_, (dispatch app req beforeGuard).calls, beforeGuard_no_guard app req, ?_⟩
    · unfold guardCalls
      rw [hcalls, List.filter_append, beforeGuard_guardCalls]
      simp [guardCallsFor, hmount, List.filter_cons, hgroup]
    · rw [hcalls]; simp [guardCallsFor, hmount]

/-- C9, at concrete requests with credentials: on the way to the order router the guard
is called twice, on the way to the address router once. -/
theorem guard_calls_on_the_way_witness :
    guardCalls (handle answeringApp ⟨.GET, "/api/orders/1", some "Bearer t"⟩) =
        [ ⟨.authenticate, "/api", ⟨.GET, "/api/orders/1", some "Bearer t"⟩⟩,
          ⟨.authenticate, "/api/orders", ⟨.GET, "/api/orders/1", some "Bearer t"⟩⟩ ] ∧
      guardCalls (handle answeringApp ⟨.PUT, "/api/address/3", some "Bearer t"⟩) =
        [⟨.authenticate, "/api", ⟨.PUT, "/api/address/3", some "Bearer t"⟩⟩] :=
  ⟨((guard_calls_on_the_way answeringApp ⟨.GET, "/api/orders/1", some "Bearer t"⟩).1
      ⟨⟨.orderRouter, "/api/orders", ⟨.GET, "/api/orders/1", some "Bearer t"⟩⟩,
        by decide, rfl⟩).2.1,
   ((guard_calls_on_the_way answeringApp ⟨.PUT, "/api/address/3", some "Bearer t"⟩).2
      "/api/address" .addressRouter (by decide)
      ⟨⟨.addressRouter, "/api/address", ⟨.PUT, "/api/address/3", some "Bearer t"⟩⟩,
        by decide, rfl⟩).2.1⟩

/-! ## The login and register carve-outs -/

/-- What the application does with a `POST` on a carve-out route, for each result of the
lookup inside `userRouter`, once the body parser and the CORS middleware passed the
request on. -/
theorem handle_carveOut (app : App) (req : Request) (route : String) (self : Handler)
    (sub msg : String) (hc : (route, self, sub, msg) ∈ carveOuts) (hmeth : req.method = .POST)
    (hpath : routeMatches route req.path = true)
    (hj : app.behaviour .expressJson req = .next) (hcors : app.behaviour .cors req = .next) :
    handle app req =
      match carveOut app sub msg req with
      | (calls, .next) =>
        ⟨[⟨.expressJson, "", req⟩, ⟨.cors, "", req⟩, ⟨self, "", req⟩] ++ calls ++
            (dispatch app req fromGuard).calls,
          (dispatch app req fromGuard).final⟩
      | (calls, .respond r) =>
        ⟨[⟨.expressJson, "", req⟩, ⟨.cors, "", req⟩, ⟨self, "", req⟩] ++ calls, .sent r⟩
      | (calls, .error) =>
        ⟨[⟨.expressJson, "", req⟩, ⟨.cors, "", req⟩, ⟨self, "", req⟩] ++ calls, .serverError⟩ := by
  simp only [carveOuts, List.mem_cons, Prod.mk.injEq, List.mem_singleton, List.not_mem_nil,
    or_false] at hc
  have hpost : handlesMethod .POST req.method = true := by rw [hmeth]; rfl
  rcases hc with ⟨rfl, rfl, rfl, rfl⟩ | ⟨rfl, rfl, rfl, rfl⟩
  · obtain ⟨h1, h2, h3, h4, h5, h6, h7, h8, h9, h10, h11⟩ := under_login req.path hpath
    rcases hco : carveOut app "/login" "Login endpoint not configured properly" req with ⟨calls, o⟩
    cases o <;>
      simp +decide [handle, appStack, fromGuard, dispatch, Layer.selects, Layer.mountPath,
        invoke, postUsersLogin, hco, hpath, hpost, hj, hcors, h1, h2, h3, h4, h5, h6]
  · obtain ⟨h1, h2, h3, h4, h5, h6, h7, h8, h9, h10, h11⟩ := under_register req.path hpath
    rcases hco : carveOut app "/register" "Register endpoint not configured properly" req
      with ⟨calls, o⟩
    cases o <;>
      simp +decide [handle, appStack, fromGuard, dispatch, Layer.selects, Layer.mountPath,
        invoke, postUsersRegister, hco, hpath, hpost, hj, hcors, h1, h2, h3, h4, h5, h6]

/-- The carve-out calls the first function on the located route's stack, and only that
one: for a `POST` on a carve-out route that the body parser and the CORS middleware pass
on, when the lookup extracts a function, that function is called right after the
carve-out itself, before any guard call. -/
theorem carve_out_calls_first_function (app : App) (req : Request) (route : String)
    (self : Handler) (sub msg : String) (hc : (route, self, sub, msg) ∈ carveOuts)
    (hmeth : req.method = .POST) (hpath : routeMatches route req.path = true)
    (hj : app.behaviour .expressJson req = .next) (hcors : app.behaviour .cors req = .next)
    (label : String) (hx : extractHandler app.userRouterStack sub = .handle label) :
    ∃ post,
      (handle app req).calls =
        [⟨.expressJson, "", req⟩, ⟨.cors, "", req⟩, ⟨self, "", req⟩] ++
          ⟨.routeHandler label, "", req⟩ :: post ∧
      ∀ c ∈ [(⟨.expressJson, "", req⟩ : Call), ⟨.cors, "", req⟩, ⟨self, "", req⟩],
        c.handler ≠ .authenticate := by
  have hself : self ≠ .authenticate := by
    simp only [carveOuts, List.mem_cons, Prod.mk.injEq, List.mem_singleton, List.not_mem_nil,
      or_false] at hc
    rcases hc with ⟨-, rfl, -, -⟩ | ⟨-, rfl, -, -⟩ <;> decide
  have hh := handle_carveOut app req route self sub msg hc hmeth hpath hj hcors
  simp only [carveOut, hx] at hh
  cases ho : app.behaviour (.routeHandler label) req <;> simp only [ho] at hh
  · exact ⟨[], by simp [hh], by simp [hself]⟩
  · exact ⟨(dispatch app req fromGuard).calls, by simp [hh], by simp [hself]⟩
  · exact ⟨[], by simp [hh], by simp [hself]⟩

/-- C3, at the failing input: the user router is built with
`router.post('/login', validate, login)`, so its stack contains a layer whose route has
path `/login` and accepts `POST`, and the login handler is registered for that route. On a
`POST` to `/api/users/login` without credentials the carve-out calls only the first
function of the route's stack, the middleware, and hands it the application's `next`; the
middleware's `next()` leaves the route and sends the request to the guard mounted on
`/api`, which answers 401. The login handler is never called. -/
theorem login_behind_middleware_not_called :
    expressBuilt middlewareApp.userRouterStack = true ∧
      (∃ layer ∈ middlewareApp.userRouterStack, ∃ r, layer.route = some r ∧ r.path = "/login" ∧
        r.methods .POST = true ∧ r.stack = [⟨some "validate"⟩, ⟨some "login"⟩]) ∧
      handle middlewareApp ⟨.POST, "/api/users/login", none⟩ =
        ⟨[ ⟨.expressJson, "", ⟨.POST, "/api/users/login", none⟩⟩,
           ⟨.cors, "", ⟨.POST, "/api/users/login", none⟩⟩,
           ⟨.postUsersLogin, "", ⟨.POST, "/api/users/login", none⟩⟩,
           ⟨.routeHandler "validate", "", ⟨.POST, "/api/users/login", none⟩⟩,
           ⟨.authenticate, "/api", ⟨.POST, "/api/users/login", none⟩⟩ ],
         .sent ⟨401, [], .json [("error", .str "Unauthorized")]⟩⟩ ∧
      ∀ c ∈ (handle middlewareApp ⟨.POST, "/api/users/login", none⟩).calls,
        c.handler ≠ .routeHandler "login" := by
  refine ⟨by decide, ⟨⟨some ⟨"/login", postOnly, [⟨some "validate"⟩, ⟨some "login"⟩]⟩⟩,
    by simp [middlewareApp, middlewareUserStack],
    ⟨"/login", postOnly, [⟨some "validate"⟩, ⟨some "login"⟩]⟩, rfl, rfl, rfl, rfl⟩,
    by decide, by decide⟩

/-- When the lookup ends in the 404 branch, a `POST` on the carve-out route that reaches
it is answered with status 404 and the JSON error; nothing else is called. -/
theorem carve_out_not_configured (app : App) (req : Request) (route : String)
    (self : Handler) (sub msg : String) (hc : (route, self, sub, msg) ∈ carveOuts)
    (hmeth : req.method = .POST) (hpath : routeMatches route req.path = true)
    (hj : app.behaviour .expressJson req = .next) (hcors : app.behaviour .cors req = .next)
    (hx : extractHandler app.userRouterStack sub = .notConfigured) :
    handle app req =
      ⟨[⟨.expressJson, "", req⟩, ⟨.cors, "", req⟩, ⟨self, "", req⟩],
        .sent ⟨404, [], .json [("error", .str msg)]⟩⟩ := by
  have hh := handle_carveOut app req route self sub msg hc hmeth hpath hj hcors
  simpa [carveOut, hx] using hh

/-- On a stack built through Express's API a located layer always yields a function: the
route accepts `POST`, so its stack is not empty, and its first entry holds a function. -/
theorem expressBuilt_located (stack : List RouterLayer) (sub : String)
    (hb : expressBuilt stack = true) (layer : RouterLayer)
    (hf : stack.find? (isPostRouteFor sub) = some layer) :
    ∃ label, extractHandler stack sub = .handle label := by
  have hmem : layer ∈ stack := List.mem_of_find?_eq_some hf
  have hsel : isPostRouteFor sub layer = true := List.find?_some hf
  have hlayer := List.all_eq_true.1 hb layer hmem
  unfold extractHandler
  rw [hf]
  cases hr : layer.route with
  | none => simp [isPostRouteFor, hr] at hsel
  | some r =>
    simp only [isPostRouteFor, hr, Bool.and_eq_true] at hsel
    simp only [hr, routeBuilt, Bool.and_eq_true, Bool.or_eq_true, Bool.not_eq_true',
      List.all_eq_true] at hlayer
    obtain ⟨hentries, hnonempty⟩ := hlayer
    have hany : allMethods.any r.methods = true :=
      List.any_eq_true.2 ⟨.POST, by simp [allMethods], hsel.2⟩
    cases hs : r.stack with
    | nil =>
      rcases hnonempty with h | h
      · rw [hany] at h; exact absurd h (by decide)
      · simp [hs] at h
    | cons first rest =>
      have hfirst := hentries first (by simp [hs])
      cases hh : first.handle with
      | none => simp [hh] at hfirst
      | some label => exact ⟨label, by simp [hr, hs, hh]⟩

/-- On a stack built through Express's API the lookup never raises, and it ends in the 404
branch exactly when `find` finds no layer. -/
theorem expressBuilt_extractHandler (stack : List RouterLayer) (sub : String)
    (hb : expressBuilt stack = true) :
    extractHandler stack sub ≠ .typeError ∧
      (extractHandler stack sub = .notConfigured ↔
        stack.find? (isPostRouteFor sub) = none) := by
  cases hf : stack.find? (isPostRouteFor sub) with
  | none => simp [extractHandler, hf]
  | some layer =>
    obtain ⟨label, hl⟩ := expressBuilt_located stack sub hb layer hf
    simp [hl]

/-- C4. For every user router built through Express's API in which the sought handler
cannot be located (the lookup extracts no function: no layer with route path `/login`,
resp. `/register`, accepting `POST`; a located layer without a usable first handler does
not occur in such a router), a `POST` to `/api/users/login` (resp. `/api/users/register`):
the carve-out handler makes no call, raises nothing and does not call `next`, it answers
with status 404 and the JSON body whose `error` is the endpoint's message; the guard is
not called; and when the body parser and the CORS middleware pass the request on, this
404 answer is how the request ends. -/
theorem carve_out_not_located (app : App) (req : Request) (route : String)
    (self : Handler) (sub msg : String) (hc : (route, self, sub, msg) ∈ carveOuts)
    (hb : expressBuilt app.userRouterStack = true)
    (hx : ∀ label, extractHandler app.userRouterStack sub ≠ .handle label)
    (hmeth : req.method = .POST) (hpath : routeMatches route req.path = true) :
    carveOut app sub msg req = ([], .respond ⟨404, [], .json [("error", .str msg)]⟩) ∧
      ¬ guardInvoked (handle app req) ∧
      (app.behaviour .expressJson req = .next → app.behaviour .cors req = .next →
        handle app req =
          ⟨[⟨.expressJson, "", req⟩, ⟨.cors, "", req⟩, ⟨self, "", req⟩],
            .sent ⟨404, [], .json [("error", .str msg)]⟩⟩) := by
  have hnc : extractHandler app.userRouterStack sub = .notConfigured := by
    have hne := (expressBuilt_extractHandler app.userRouterStack sub hb).1
    cases hcase : extractHandler app.userRouterStack sub with
    | handle label => exact absurd hcase (hx label)
    | notConfigured => rfl
    | typeError => exact absurd hcase hne
  have hself : self ≠ .authenticate := by
    simp only [carveOuts, List.mem_cons, Prod.mk.injEq, List.mem_singleton, List.not_mem_nil,
      or_false] at hc
    rcases hc with ⟨-, rfl, -, -⟩ | ⟨-, rfl, -, -⟩ <;> decide
  refine ⟨by simp [carveOut, hnc], ?_,
    fun hj hcors => carve_out_not_configured app req route self sub msg hc hmeth hpath hj hcors hnc⟩
  unfold guardInvoked
  cases hj : app.behaviour .expressJson req
  case next =>
    cases hcors : app.behaviour .cors req
    case next =>
      rw [carve_out_not_configured app req route self sub msg hc hmeth hpath hj hcors hnc]
      simp [hself]
    all_goals
      simp +decide [handle, appStack, dispatch, Layer.selects, Layer.mountPath, invoke, hj, hcors]
  all_goals
    simp +decide [handle, appStack, dispatch, Layer.selects, Layer.mountPath, invoke, hj]

/-- C4, at a concrete request: the user router has no login route, and a `POST` to
`/api/users/login` is answered with 404 and the login message, without a guard call. -/
theorem carve_out_not_located_witness :
    carveOut loginlessApp "/login" "Login endpoint not configured properly"
        ⟨.POST, "/api/users/login", none⟩ =
      ([], .respond ⟨404, [], .json [("error", .str "Login endpoint not configured properly")]⟩) ∧
      ¬ guardInvoked (handle loginlessApp ⟨.POST, "/api/users/login", none⟩) ∧
      (loginlessApp.behaviour .expressJson ⟨.POST, "/api/users/login", none⟩ = .next →
        loginlessApp.behaviour .cors ⟨.POST, "/api/users/login", none⟩ = .next →
        handle loginlessApp ⟨.POST, "/api/users/login", none⟩ =
          ⟨[ ⟨.expressJson, "", ⟨.POST, "/api/users/login", none⟩⟩,
             ⟨.cors, "", ⟨.POST, "/api/users/login", none⟩⟩,
             ⟨.postUsersLogin, "", ⟨.POST, "/api/users/login", none⟩⟩ ],
           .sent ⟨404, [], .json [("error", .str "Login endpoint not configured properly")]⟩⟩) :=
  carve_out_not_located loginlessApp ⟨.POST, "/api/users/login", none⟩ "/api/users/login"
    .postUsersLogin "/login" "Login endpoint not configured properly" (by decide) (by decide)
    (fun label h => by
      have h2 : extractHandler loginlessApp.userRouterStack "/login" = .notConfigured := by
        decide
      rw [h2] at h
      exact Extraction.noConfusion h)
    rfl (by decide)

/-- The results of the lookup, in terms of the stack: a handler is extracted when the
first layer that `find` accepts has a route whose first stack entry holds it; the 404
branch is taken when no layer is found or that first entry has no handler; the lookup
raises when the found route's stack is empty. -/
theorem extractHandler_cases (stack : List RouterLayer) (sub : String) :
    (∀ label, extractHandler stack sub = .handle label ↔
      ∃ layer r first rest, stack.find? (isPostRouteFor sub) = some layer ∧
        layer.route = some r ∧ r.stack = first :: rest ∧ first.handle = some label) ∧
    (extractHandler stack sub = .notConfigured ↔
      stack.find? (isPostRouteFor sub) = none ∨
        ∃ layer r first rest, stack.find? (isPostRouteFor sub) = some layer ∧
          layer.route = some r ∧ r.stack = first :: rest ∧ first.handle = none) ∧
    (extractHandler stack sub = .typeError ↔
      ∃ layer r, stack.find? (isPostRouteFor sub) = some layer ∧ layer.route = some r ∧
        r.stack = []) := by
  unfold extractHandler
  cases hf : stack.find? (isPostRouteFor sub) with
  | none => simp
  | some layer =>
    have hsel : isPostRouteFor sub layer = true := List.find?_some hf
    cases hr : layer.route with
    | none => simp [isPostRouteFor, hr] at hsel
    | some r =>
      cases hs : r.stack with
      | nil => simp [hr, hs]
      | cons first rest =>
        cases hh : first.handle <;> simp [hr, hs, hh]

/-! ## Answered requests -/

/-- C7, as amended. Once a binding that selects the request answers it (its handler
responds or raises instead of calling `next`), the bindings registered after it play no
part: the handling is that of the stack cut after this binding. In particular, for a
`POST` to `/api/users/login` or `/api/users/register` whose extracted handler, if there is
one, does not call `next`, neither the guard nor the `userRouter` mount is called. -/
theorem answered_request_stops (app : App) (req : Request) :
    (∀ pre l post, appStack = pre ++ l :: post → l.selects req = true →
      (invoke app l req).2 ≠ .next → handle app req = dispatch app req (pre ++ [l])) ∧
    (∀ route self sub msg, (route, self, sub, msg) ∈ carveOuts → req.method = .POST →
      routeMatches route req.path = true →
      (∀ label, extractHandler app.userRouterStack sub = .handle label →
        app.behaviour (.routeHandler label) req ≠ .next) →
      ¬ guardInvoked (handle app req) ∧ ∀ c ∈ (handle app req).calls, c.handler ≠ .userRouter) := by
  constructor
  · intro pre l post hsplit hs ho
    have hcut : dispatch app req (l :: post) = dispatch app req [l] := by
      simp only [dispatch, hs, if_true]
      rcases hi : invoke app l req with ⟨sub, o⟩
      rw [hi] at ho
      cases o <;> simp at ho ⊢
    unfold handle
    rw [hsplit, dispatch_append, dispatch_append, hcut]
  · intro route self sub msg hc hmeth hpath hsub
    have hself : self ≠ .authenticate ∧ self ≠ .userRouter := by
      simp only [carveOuts, List.mem_cons, Prod.mk.injEq, List.mem_singleton,
        List.not_mem_nil, or_false] at hc
      rcases hc with ⟨-, rfl, -, -⟩ | ⟨-, rfl, -, -⟩ <;> decide
    have hpost : handlesMethod .POST req.method = true := by rw [hmeth]; rfl
    unfold guardInvoked
    cases hj : app.behaviour .expressJson req
    case next =>
      cases hcors : app.behaviour .cors req
      case next =>
        have hh := handle_carveOut app req route self sub msg hc hmeth hpath hj hcors
        unfold carveOut at hh
        cases hx : extractHandler app.userRouterStack sub with
        | handle label =>
          have hne := hsub label hx
          simp only [hx] at hh
          cases ho : app.behaviour (.routeHandler label) req
          case next => exact absurd ho hne
          all_goals simp only [ho] at hh; rw [hh]; simp [hself]
        | notConfigured => simp only [hx] at hh; rw [hh]; simp [hself]
        | typeError => simp only [hx] at hh; rw [hh]; simp [hself]
      all_goals
        simp +decide [handle, appStack, dispatch, Layer.selects, Layer.mountPath, invoke, hj, hcors]
    all_goals
      simp +decide [handle, appStack, dispatch, Layer.selects, Layer.mountPath, invoke, hj]

/-- C7, as amended, at concrete requests: the carve-out for `/api/users/register` is the
eighth binding of the stack and answers, so the handling is that of the first eight
bindings; and a login whose handler answers reaches neither the guard nor the `userRouter`
mount. -/
theorem answered_request_stops_witness :
    handle answeringApp ⟨.POST, "/api/users/register", none⟩ =
        dispatch answeringApp ⟨.POST, "/api/users/register", none⟩
          (appStack.take 7 ++ [⟨.route .POST "/api/users/register", .postUsersRegister⟩]) ∧
      (¬ guardInvoked (handle answeringApp ⟨.POST, "/api/users/login", none⟩) ∧
        ∀ c ∈ (handle answeringApp ⟨.POST, "/api/users/login", none⟩).calls,
          c.handler ≠ .userRouter) :=
  ⟨(answered_request_stops answeringApp ⟨.POST, "/api/users/register", none⟩).1
      (appStack.take 7) ⟨.route .POST "/api/users/register", .postUsersRegister⟩
      (appStack.drop 8) (by decide) (by decide) (by decide),
   (answered_request_stops answeringApp ⟨.POST, "/api/users/login", none⟩).2
      "/api/users/login" .postUsersLogin "/login" "Login endpoint not configured properly"
      (by decide) rfl (by decide)
      (fun label h => by
        have hl : label = "login" := by
          have h2 : extractHandler answeringApp.userRouterStack "/login" = .handle "login" := by
            decide
          rw [h2] at h
          exact (Extraction.handle.inj h).symm
        subst hl
        decide)⟩

/-- C7 fails as stated: the carve-out hands `next` to the extracted handler, so a login
handler that calls `next()` sends the request on to the guard mounted on `/api` and, the
guard passing, to the `userRouter` mounted on `/api/users`. -/
theorem login_handler_next_reaches_guard :
    extractHandler passingApp.userRouterStack "/login" = .handle "login" ∧
      passingApp.behaviour (.routeHandler "login")
        ⟨.POST, "/api/users/login", some "Bearer t"⟩ = .next ∧
      (handle passingApp ⟨.POST, "/api/users/login", some "Bearer t"⟩).calls =
        [ ⟨.expressJson, "", ⟨.POST, "/api/users/login", some "Bearer t"⟩⟩,
          ⟨.cors, "", ⟨.POST, "/api/users/login", some "Bearer t"⟩⟩,
          ⟨.postUsersLogin, "", ⟨.POST, "/api/users/login", some "Bearer t"⟩⟩,
          ⟨.routeHandler "login", "", ⟨.POST, "/api/users/login", some "Bearer t"⟩⟩,
          ⟨.authenticate, "/api", ⟨.POST, "/api/users/login", some "Bearer t"⟩⟩,
          ⟨.userRouter, "/api/users", ⟨.POST, "/api/users/login", some "Bearer t"⟩⟩ ] ∧
      guardInvoked (handle passingApp ⟨.POST, "/api/users/login", some "Bearer t"⟩) := by
  refine ⟨by decide, by decide, by decide, ?_⟩
  exact ⟨⟨.authenticate, "/api", ⟨.POST, "/api/users/login", some "Bearer t"⟩⟩, by decide, rfl⟩

/-! ## Status reporter -/

/-- The two components are the floors the inequalities describe. -/
theorem uptime_components (s : ℚ) (H M : ℕ)
    (hH : 3600 * (H : ℚ) ≤ s ∧ s < 3600 * ((H : ℚ) + 1))
    (hM : 60 * (M : ℚ) ≤ s - 3600 * H ∧ s - 3600 * H < 60 * ((M : ℚ) + 1)) :
    uptimeHours s = H ∧ uptimeMinutes s = M := by
  obtain ⟨h1, h2⟩ := hH
  obtain ⟨h3, h4⟩ := hM
  have hfloor : ⌊s / 3600⌋ = (H : ℤ) := by
    rw [Int.floor_eq_iff]
    constructor
    · rw [le_div_iff₀ (by norm_num)]; push_cast; linarith
    · rw [div_lt_iff₀ (by norm_num)]; push_cast; linarith
  have hnonneg : (0 : ℚ) ≤ s / 3600 := by
    have : (0 : ℚ) ≤ (H : ℚ) := Nat.cast_nonneg H
    apply div_nonneg <;> linarith
  refine ⟨hfloor, ?_⟩
  unfold uptimeMinutes jsRem
  rw [if_pos hnonneg, hfloor, Int.floor_eq_iff]
  push_cast
  constructor
  · rw [le_div_iff₀ (by norm_num)]; linarith
  · rw [div_lt_iff₀ (by norm_num)]; linarith

/-- For a whole number of seconds the components are the integer quotients. -/
theorem uptime_components_whole (n : ℕ) :
    uptimeHours (n : ℚ) = ((n / 3600 : ℕ) : ℤ) ∧
      uptimeMinutes (n : ℚ) = ((n % 3600 / 60 : ℕ) : ℤ) := by
  apply uptime_components
  · have h1 : 3600 * (n / 3600) ≤ n := Nat.mul_div_le n 3600
    have h2 : n < 3600 * (n / 3600 + 1) := Nat.lt_mul_div_succ n (by norm_num)
    exact ⟨by exact_mod_cast h1, by exact_mod_cast h2⟩
  · have h0 : 3600 * (n / 3600) ≤ n := Nat.mul_div_le n 3600
    have h1 : 60 * (n % 3600 / 60) + 3600 * (n / 3600) ≤ n := by omega
    have h2 : n < 60 * (n % 3600 / 60 + 1) + 3600 * (n / 3600) := by omega
    have h1q : (60 : ℚ) * ((n % 3600 / 60 : ℕ) : ℚ) + 3600 * ((n / 3600 : ℕ) : ℚ) ≤ n := by
      exact_mod_cast h1
    have h2q : (n : ℚ) < 60 * (((n % 3600 / 60 : ℕ) : ℚ) + 1) + 3600 * ((n / 3600 : ℕ) : ℚ) := by
      exact_mod_cast h2
    constructor <;> linarith

/-- C6. For a non-negative uptime `s` (fractions of a second included) there are whole
numbers `H` and `M` with `3600 H ≤ s < 3600 (H + 1)` and `60 M ≤ s - 3600 H < 60 (M + 1)`,
that is, `H` is the floor of `s / 3600` and `M` the floor of `(s mod 3600) / 60`; and for
such `H` and `M` the rendered uptime is `H`, the letter h, a blank, `M` and the letter m.
Both numbers are truncated, never rounded up. -/
theorem formattedUptime_floor (s : ℚ) (hs : 0 ≤ s) :
    (∃ H M : ℕ, (3600 * (H : ℚ) ≤ s ∧ s < 3600 * ((H : ℚ) + 1)) ∧
      (60 * (M : ℚ) ≤ s - 3600 * H ∧ s - 3600 * H < 60 * ((M : ℚ) + 1))) ∧
    (∀ H M : ℕ, (3600 * (H : ℚ) ≤ s ∧ s < 3600 * ((H : ℚ) + 1)) →
      (60 * (M : ℚ) ≤ s - 3600 * H ∧ s - 3600 * H < 60 * ((M : ℚ) + 1)) →
      formattedUptime s = toString H ++ "h " ++ toString M ++ "m") := by
  constructor
  · have h1 : (0 : ℚ) ≤ s / 3600 := by positivity
    have h2 := Nat.floor_le h1
    have h3 := Nat.lt_floor_add_one (s / 3600)
    rw [le_div_iff₀ (by norm_num)] at h2
    rw [div_lt_iff₀ (by norm_num)] at h3
    have h4 : (0 : ℚ) ≤ (s - 3600 * (⌊s / 3600⌋₊ : ℚ)) / 60 := by
      apply div_nonneg <;> linarith
    have h5 := Nat.floor_le h4
    have h6 := Nat.lt_floor_add_one ((s - 3600 * (⌊s / 3600⌋₊ : ℚ)) / 60)
    rw [le_div_iff₀ (by norm_num)] at h5
    rw [div_lt_iff₀ (by norm_num)] at h6
    exact ⟨⌊s / 3600⌋₊, ⌊(s - 3600 * (⌊s / 3600⌋₊ : ℚ)) / 60⌋₊, ⟨by linarith, by linarith⟩,
      ⟨by linarith, by linarith⟩⟩
  · intro H M hH hM
    obtain ⟨h1, h2⟩ := uptime_components s H M hH hM
    unfold formattedUptime
    rw [h1, h2]
    rfl

/-- C6, at the uptimes the specification names: 3661 seconds render as one hour and one
minute; 3599 seconds, and 3599.5 seconds, render as zero hours and 59 minutes. -/
theorem formattedUptime_floor_witness :
    formattedUptime 3661 = "1h 1m" ∧ formattedUptime 3599 = "0h 59m" ∧
      formattedUptime (7199 / 2) = "0h 59m" :=
  ⟨(formattedUptime_floor 3661 (by norm_num)).2 1 1 (by norm_num) (by norm_num),
   (formattedUptime_floor 3599 (by norm_num)).2 0 59 (by norm_num) (by norm_num),
   (formattedUptime_floor (7199 / 2) (by norm_num)).2 0 59 (by norm_num) (by norm_num)⟩

/-- C10. For a whole number `s` of seconds, the minutes component lies between 0 and 59,
hours and minutes together are the whole minutes of `s`, and the displayed value never
overstates the uptime and understates it by less than a minute. -/
theorem uptime_components_bounds (s : ℕ) :
    0 ≤ uptimeMinutes (s : ℚ) ∧ uptimeMinutes (s : ℚ) ≤ 59 ∧
      uptimeHours (s : ℚ) * 60 + uptimeMinutes (s : ℚ) = ((s / 60 : ℕ) : ℤ) ∧
      3600 * uptimeHours (s : ℚ) + 60 * uptimeMinutes (s : ℚ) ≤ (s : ℤ) ∧
      (s : ℤ) < 3600 * uptimeHours (s : ℚ) + 60 * uptimeMinutes (s : ℚ) + 60 := by
  obtain ⟨h1, h2⟩ := uptime_components_whole s
  rw [h1, h2]
  refine ⟨by positivity, ?_, ?_, ?_, ?_⟩
  · have : s % 3600 / 60 ≤ 59 := by omega
    exact_mod_cast this
  · have : s / 3600 * 60 + s % 3600 / 60 = s / 60 := by omega
    exact_mod_cast this
  · have : 3600 * (s / 3600) + 60 * (s % 3600 / 60) ≤ s := by omega
    exact_mod_cast this
  · have : s < 3600 * (s / 3600) + 60 * (s % 3600 / 60) + 60 := by omega
    exact_mod_cast this

/-- C5. Whatever `NODE_ENV`, the package version, the uptime and the clock are, the
payload of `GET /api/status` has `status` equal to ok, and `version`, `environment` and
`timestamp` (the clock reading); each of `uptime`, `memory`, `platform` and `nodeVersion`
is present exactly when `NODE_ENV` is not the string production; and this payload is what
the handler sends, with status 200. -/
theorem statusPayload_fields (p : Process) :
    field "status" (statusPayload p) = some (.str "ok") ∧
    field "version" (statusPayload p) = some (.str (orDefault p.packageVersion "1.0.0")) ∧
    field "environment" (statusPayload p) = some (.str (orDefault p.nodeEnv "development")) ∧
    field "timestamp" (statusPayload p) = some (.str p.isoNow) ∧
    (∀ name ∈ ["uptime", "memory", "platform", "nodeVersion"],
      ((field name (statusPayload p)).isSome = true ↔ p.nodeEnv ≠ some "production")) ∧
    (p.nodeEnv ≠ some "production" →
      field "uptime" (statusPayload p) = some (.str (formattedUptime p.uptime)) ∧
      field "memory" (statusPayload p) =
        some (.obj [("used", p.memoryUsedMB ++ " MB"), ("total", p.memoryTotalMB ++ " MB")]) ∧
      field "platform" (statusPayload p) = some (.str p.platform) ∧
      field "nodeVersion" (statusPayload p) = some (.str p.nodeVersion)) ∧
    (∀ credentials, ∃ headers,
      statusRouterHandle p ⟨.GET, "/api/status", credentials⟩ =
        .respond ⟨200, headers, .json (statusPayload p)⟩) := by
  by_cases hprod : p.nodeEnv = some "production"
  · simp +decide [statusPayload, field, List.lookup, hprod, statusRouterHandle]
  · simp +decide [statusPayload, field, List.lookup, hprod, statusRouterHandle]

/-- C5, at concrete processes: outside production the payload carries the uptime field,
in production it does not. -/
theorem statusPayload_fields_witness :
    ((field "uptime" (statusPayload sampleProcess)).isSome = true ∧
        field "platform" (statusPayload sampleProcess) = some (.str "linux")) ∧
      ¬ (field "uptime"
          (statusPayload { sampleProcess with nodeEnv := some "production" })).isSome = true :=
  ⟨⟨((statusPayload_fields sampleProcess).2.2.2.2.1 "uptime" (by decide)).2 (by decide),
      ((statusPayload_fields sampleProcess).2.2.2.2.2.1 (by decide)).2.2.1⟩,
   fun h =>
    ((statusPayload_fields { sampleProcess with nodeEnv := some "production" }).2.2.2.2.1
      "uptime" (by decide)).1 h rfl⟩

end AnneBackend
